import Mathlib

/-
Verification of the redux-enhanced-slice core (src/create-enhanced-slice.ts):
a shallow embedding of the dynamic JavaScript values and the slice-creator
logic (enum table construction, initial-state derivation, the explicit
setPageData mutation with bundleCase, and the three lifecycle handlers),
together with theorems settling the specification claims.
-/

namespace MMRedux

/-- Dynamic JavaScript value: undefined, null, booleans, numbers (modelled as
integers, which covers every value the code manipulates), strings, arrays and
plain objects (ordered string-keyed field lists, as JS objects preserve
insertion order). -/
inductive JVal where
  | undef : JVal
  | null : JVal
  | bool : Bool → JVal
  | num : Int → JVal
  | str : String → JVal
  | arr : List JVal → JVal
  | obj : List (String × JVal) → JVal
deriving Repr

mutual

/-- Structural (deep) equality on JavaScript values, the identity notion the
uniqueness checker falls back to for items without an id field. -/
def jEqV : JVal → JVal → Bool
  | .undef, .undef => true
  | .null, .null => true
  | .bool a, .bool b => a == b
  | .num a, .num b => a == b
  | .str a, .str b => a == b
  | .arr xs, .arr ys => jEqVList xs ys
  | .obj xs, .obj ys => jEqVFields xs ys
  | _, _ => false
termination_by structural v _ => v

/-- Deep equality on lists of JavaScript values. -/
def jEqVList : List JVal → List JVal → Bool
  | [], [] => true
  | x :: xs, y :: ys => jEqV x y && jEqVList xs ys
  | _, _ => false
termination_by structural v _ => v

/-- Deep equality on field lists of JavaScript objects. -/
def jEqVFields : List (String × JVal) → List (String × JVal) → Bool
  | [], [] => true
  | (k1, v1) :: xs, (k2, v2) :: ys => k1 == k2 && jEqV v1 v2 && jEqVFields xs ys
  | _, _ => false
termination_by structural v _ => v

end

/-- Truthiness of a JavaScript value: undefined, null, false, 0 and the empty
string are falsy; every other value (including empty arrays and objects) is
truthy. -/
def truthy : JVal → Bool
  | .undef => false
  | .null => false
  | .bool b => b
  | .num n => n != 0
  | .str s => s ≠ ""
  | .arr _ => true
  | .obj _ => true

/-- Result of the typeof operator. -/
def jTypeof : JVal → String
  | .undef => "undefined"
  | .null => "object"
  | .bool _ => "boolean"
  | .num _ => "number"
  | .str _ => "string"
  | .arr _ => "object"
  | .obj _ => "object"

/-- Strict equality on the values the code actually compares with it:
primitives compare by value; distinct object or array terms are reference
comparisons, conservatively false (the code only applies strict equality where
at least one side is a primitive). -/
def jStrictEq : JVal → JVal → Bool
  | .undef, .undef => true
  | .null, .null => true
  | .bool a, .bool b => a == b
  | .num a, .num b => a == b
  | .str a, .str b => a == b
  | _, _ => false

/-- Lookup of a field of a JavaScript object: the first entry with the given
key (JS objects never hold two entries with the same key, so first-match is
exact). -/
def lookupJ : List (String × JVal) → String → Option JVal
  | [], _ => none
  | q :: rest, key => if q.1 == key then some q.2 else lookupJ rest key

/-- Field read on an object field list, with the JS result undefined for a
missing key. -/
def jIndexF (fields : List (String × JVal)) (key : String) : JVal :=
  (lookupJ fields key).getD JVal.undef

/-- Assignment to a field of a JavaScript object: overwrites the entry in
place when the key is present, otherwise appends a new entry (JS insertion
order semantics; JS objects never hold two entries with the same key, so
replacing the first occurrence is exact). -/
def objSet : List (String × JVal) → String → JVal → List (String × JVal)
  | [], key, v => [(key, v)]
  | q :: rest, key, v =>
      if q.1 == key then (key, v) :: rest else q :: objSet rest key v

/-- Nullish test (undefined or null), the guard of optional chaining and of
the nullish-coalescing operator. -/
def jIsNullish : JVal → Bool
  | .undef => true
  | .null => true
  | _ => false

/-- Property read on a value that is known not to be nullish: objects look up
the field, arrays and strings expose length, every other read is undefined. -/
def getPropD : JVal → String → JVal
  | .obj fields, key => jIndexF fields key
  | .arr xs, key => if key == "length" then .num xs.length else .undef
  | .str s, key => if key == "length" then .num s.length else .undef
  | _, _ => JVal.undef

/-- Plain property read: throws a TypeError on undefined and null, otherwise
reads the property. -/
def getProp : JVal → String → Except String JVal
  | .undef, key =>
      .error ("TypeError: Cannot read properties of undefined (reading "
        ++ key ++ ")")
  | .null, key =>
      .error ("TypeError: Cannot read properties of null (reading "
        ++ key ++ ")")
  | v, key => .ok (getPropD v key)

/-- Optional-chaining property read: undefined on a nullish base, otherwise
the plain read. -/
def optGet (v : JVal) (key : String) : JVal :=
  if jIsNullish v then .undef else getPropD v key

/-- Property assignment: throws a TypeError on undefined and null, updates the
field of an object, and is a silent no-op on primitives (sloppy-mode JS; the
code never assigns a property of an array). -/
def setProp : JVal → String → JVal → Except String JVal
  | .undef, key, _ =>
      .error ("TypeError: Cannot set properties of undefined (setting "
        ++ key ++ ")")
  | .null, key, _ =>
      .error ("TypeError: Cannot set properties of null (setting "
        ++ key ++ ")")
  | .obj fields, key, v => .ok (.obj (objSet fields key v))
  | other, _, _ => .ok other

/-- Array spread: the elements of an array, the characters of a string, a
TypeError on any non-iterable value. -/
def spreadJ : JVal → Except String (List JVal)
  | .arr xs => .ok xs
  | .str s => .ok (s.data.map (fun c => .str (String.mk [c])))
  | _ => .error "TypeError: value is not iterable"

/-- Coercion of a value used as a computed property key (state[k]): strings
pass through, undefined becomes the string undefined, and the remaining cases
follow the JS ToString coercion closely enough for the values that occur. -/
def jKeyString : JVal → String
  | .undef => "undefined"
  | .null => "null"
  | .bool b => if b then "true" else "false"
  | .num n => toString n
  | .str s => s
  | .arr _ => ""
  | .obj _ => "[object Object]"

/-- Length of an array value (only applied where the code has already checked
Array.isArray). -/
def arrLen : JVal → Nat
  | .arr xs => xs.length
  | _ => 0

/-- Array.isArray. -/
def isArrJ : JVal → Bool
  | .arr _ => true
  | _ => false

/-! ### Modelled utility functions

The module src/utils of this repository is imported by
src/create-enhanced-slice.ts but its file is not part of the sources at hand;
the four functions below are modelled from the specification. -/

/-- Modelled from the spec: the Key Namespacer (utils.sliceString, whose file
is missing from the sources). Per section 4.1 it is a pure, deterministic,
injective derivation of a namespaced field name, and the in-source doc comment
of createInitialStateSlice describes the produced keys as generated by
concatenating the name argument with each key, which is what this definition
does. -/
def sliceString (name key : String) : String := name ++ key

/-- Modelled from the spec: the identity of an item under the uniqueness rule
of section 4.6 (utils, missing from the sources): records sharing an
identifying id field are the same entity, and otherwise whole-value deep
equality decides. The identity of an object with an id field is that id, and
the identity of anything else is the value itself. -/
def itemKey (v : JVal) : JVal :=
  match v with
  | .obj fields =>
      match lookupJ fields "id" with
      | some idv => idv
      | none => v
  | other => other

/-- Modelled from the spec: utils.isUnique (missing from the sources), true
iff no two elements of the sequence are duplicates under the identity rule of
section 4.6. -/
def isUnique : List JVal → Bool
  | [] => true
  | x :: rest =>
      rest.all (fun y => !jEqV (itemKey x) (itemKey y)) && isUnique rest

/-- Modelled from the spec: utils.getUnique (missing from the sources), the
stable de-duplication of section 4.6: one element per identity, ordered by the
first appearance of each identity, with the last-seen occurrence supplying the
kept value. -/
def getUnique (items : List JVal) : List JVal :=
  items.foldl
    (fun acc v =>
      if acc.any (fun w => jEqV (itemKey w) (itemKey v)) then
        acc.map (fun w => if jEqV (itemKey w) (itemKey v) then v else w)
      else
        acc ++ [v])
    []

/-! ### Embedded source functions (src/create-enhanced-slice.ts) -/

/-- Embedding of getKeyFromEnumValue: the first entry of the enum object whose
value is strictly equal to the given value, or none. -/
def getKeyFromEnumValue (enumObject : List (String × JVal)) (value : JVal) :
    Option String :=
  (enumObject.find? (fun p => jStrictEq p.2 value)).map (fun p => p.1)

/-- Lookup inside a single modified-keys record (a one-entry object mapping a
namespaced key to its base key). -/
def recordGet (record : List (String × String)) (key : String) :
    Option String :=
  (record.find? (fun p => p.1 == key)).map (fun p => p.2)

/-- Embedding of createEnumObject: objKeys are the keys of the obj argument
(the derived initial state, so namespaced keys) and initialKeys are the keys
of the initialKey argument (the seed object, so base keys). Each step finds
the record whose entry at the current key is truthy, then stores both the
forward and the reverse entry. -/
def createEnumObject (objKeys initialKeys : List String) (name : String) :
    List (String × JVal) :=
  let modifiedKeys : List (List (String × String)) :=
    initialKeys.map (fun key => [(sliceString name key, key)])
  objKeys.foldl
    (fun accumulator key =>
      let modifiedKey : Option String :=
        (modifiedKeys.find?
            (fun record => ((recordGet record key).getD "") ≠ "")).bind
          (fun record => recordGet record key)
      let acc1 := objSet accumulator key
        (match modifiedKey with
         | some s => .str s
         | none => .undef)
      objSet acc1
        (match modifiedKey with
         | some s => s
         | none => "undefined")
        (.str key))
    []

/-- Pagination envelope with the construction-time defaults, as written in
createInitialStateSlice. -/
def pageEnvelope (v : JVal) : JVal :=
  .obj [("results", v), ("isLoading", .bool false), ("hasMore", .bool true),
        ("page", .num 0), ("errors", .null)]

/-- Envelope with explicit field values, for stating sub-state shapes. -/
def envWith (r il hm pg er : JVal) : JVal :=
  .obj [("results", r), ("isLoading", il), ("hasMore", hm),
        ("page", pg), ("errors", er)]

/-- Embedding of createInitialStateSlice: reduce over the keys of the seed; a
truthy ignoreDefaultReducers, or a number, string or boolean value, is copied
verbatim under its namespaced key, anything else is wrapped in the pagination
envelope. -/
def createInitialStateSlice (state : List (String × JVal)) (name : String)
    (ignoreDefaultReducers : JVal) : List (String × JVal) :=
  (state.map (fun p => p.1)).foldl
    (fun accumulator key =>
      if truthy ignoreDefaultReducers
          || (["number", "string", "boolean"].contains
                (jTypeof (jIndexF state key))) then
        objSet accumulator (sliceString name key) (jIndexF state key)
      else
        objSet accumulator (sliceString name key)
          (pageEnvelope (jIndexF state key)))
    []

/-- Embedding of bundleCase, with the evaluation order of the source: the
cannnotConcat test (strict equality of the optionally-read page with 1, short
circuiting past the plain falsiness read), the Array.isArray test on the
optionally-read results, the paging-token test (which reads state.page with a
plain, throwing access), then the conditional replace-or-concatenate
assignment to state.results and the recomputation of state.hasMore. -/
def bundleCase (state data : JVal) : Except String JVal := do
  let cannnotConcat ←
    if jStrictEq (optGet data "page") (.num 1) then pure true
    else do
      let dp ← getProp data "page"
      pure (!truthy dp)
  let isArray := isArrJ (optGet data "results")
  let sp ← getProp state "page"
  let canConcatForPagingToken ←
    if jTypeof sp == "string" then do
      let dp ← getProp data "page"
      pure (jStrictEq dp sp)
    else pure false
  let newResults ←
    if cannnotConcat || !isArray then
      pure (optGet data "results")
    else do
      let sr ← getProp state "results"
      let srs ← spreadJ sr
      let drs ←
        if canConcatForPagingToken then pure ([] : List JVal)
        else do
          let dr ← getProp data "results"
          spreadJ dr
      pure (JVal.arr (srs ++ drs))
  let state1 ← setProp state "results" newResults
  setProp state1 "hasMore"
    (if isArray then .bool (0 < arrLen (optGet data "results")) else .bool true)

/-- Write-back of a sub-state that the source mutates through an alias into
the container state: a mutated object (or an untouched primitive) is stored
back at its key; a nullish sub-state reaches this point only when no
assignment ran on it, so the container is returned unchanged. -/
def writeBack (state : JVal) (key : String) (sub : JVal) :
    Except String JVal :=
  if jIsNullish sub then pure state else setProp state key sub

/-- Embedding of the setPageData reducer: a truthy ignoreDefaultReducers makes
it a pure no-op (after a diagnostic); otherwise the query type is taken from
the action payload or its data, a falsy consolidated key only emits a
diagnostic and execution continues, the addressed sub-state has its errors and
page overwritten when the incoming values are truthy, bundleCase reconciles
the results, and isLoading is set to the incoming value or false. -/
def setPageData (ignoreDefaultReducers : JVal) (state payload : JVal) :
    Except String JVal := do
  if truthy ignoreDefaultReducers then
    pure state
  else
    let type ← getProp payload "_queryType"
    let data ← getProp payload "data"
    let consolidateQueryType ←
      if truthy type then pure type else getProp data "_queryType"
    let newState ← getProp state (jKeyString consolidateQueryType)
    let de ← getProp data "errors"
    let ns1 ← if truthy de then setProp newState "errors" de else pure newState
    let dp ← getProp data "page"
    let ns2 ← if truthy dp then setProp ns1 "page" dp else pure ns1
    let ns3 ← bundleCase ns2 data
    let il := optGet data "isLoading"
    let ns4 ← setProp ns3 "isLoading" (if truthy il then il else .bool false)
    writeBack state (jKeyString consolidateQueryType) ns4

/-- Read of action.meta.arg.originalArgs._queryType, the chained plain
property accesses of the three lifecycle handlers. -/
def resolveActionKey (action : JVal) : Except String JVal := do
  let meta ← getProp action "meta"
  let arg ← getProp meta "arg"
  let oa ← getProp arg "originalArgs"
  getProp oa "_queryType"

/-- Embedding of the pending-case handler: with a truthy key that resolves via
the enum table, isLoading of the addressed sub-state is set to true; otherwise
only a diagnostic is emitted. -/
def pendingCase (enumTable : List (String × JVal)) (state action : JVal) :
    Except String JVal := do
  let key ← resolveActionKey action
  let newState ← getProp state (jKeyString key)
  if truthy key && (getKeyFromEnumValue enumTable key).isSome then
    let ns1 ← setProp newState "isLoading" (.bool true)
    writeBack state (jKeyString key) ns1
  else
    pure state

/-- Embedding of the rejected-case handler: with a resolvable key, isLoading
is cleared when it was truthy and errors is set to the action payload when the
current errors value is truthy; otherwise only a diagnostic is emitted. -/
def failedCase (enumTable : List (String × JVal)) (state action : JVal) :
    Except String JVal := do
  let key ← resolveActionKey action
  let newState ← getProp state (jKeyString key)
  if truthy key && (getKeyFromEnumValue enumTable key).isSome then
    let ns1 ←
      if truthy (optGet newState "isLoading") then
        setProp newState "isLoading" (.bool false)
      else pure newState
    let ns2 ←
      if truthy (optGet ns1 "errors") then do
        let p ← getProp action "payload"
        setProp ns1 "errors" p
      else pure ns1
    writeBack state (jKeyString key) ns2
  else
    pure state

/-- Embedding of the fulfilled-case handler: with a resolvable key and a
truthy payload results (or truthy results length), a non-empty current results
array goes through the combined-unique merge gate (union unique, current
unique, hasMore false) and only a passing gate replaces results with the
de-duplicated union; a current results that is not a non-empty array goes
through the empty-or-page-1 full replace; isLoading is cleared in every
resolvable case. -/
def successCase (enumTable : List (String × JVal)) (state action : JVal) :
    Except String JVal := do
  let key ← resolveActionKey action
  let newState ← getProp state (jKeyString key)
  if truthy key && (getKeyFromEnumValue enumTable key).isSome then
    let pr := optGet (optGet action "payload") "results"
    let ns1 ←
      if truthy pr || truthy (optGet pr "length") then do
        let nr ← getProp newState "results"
        if isArrJ nr && truthy (optGet (optGet newState "results") "length")
        then do
          let nrL ← spreadJ nr
          let prL ← spreadJ (if jIsNullish pr then .arr [] else pr)
          let hm ← getProp newState "hasMore"
          let itemIsUnique :=
            isUnique (nrL ++ prL) && isUnique nrL && !truthy hm
          if itemIsUnique then do
            let nrL2 ← spreadJ nr
            let prL2 ← spreadJ (if jIsNullish pr then .arr [] else pr)
            setProp newState "results" (.arr (getUnique (nrL2 ++ prL2)))
          else pure newState
        else do
          let c1 := !truthy (optGet (optGet newState "results") "length")
          let pg ← getProp newState "page"
          if c1 || jStrictEq pg (.num 1) then
            setProp newState "results" pr
          else pure newState
      else pure newState
    let ns2 ← setProp ns1 "isLoading" (.bool false)
    writeBack state (jKeyString key) ns2
  else
    pure state

/-! ### Concrete containers, actions and field extraction used by the claims -/

/-- Record with a single id field, the item shape of the spec scenarios. -/
def itm (n : Int) : JVal := .obj [("id", .num n)]

/-- Lifecycle action value: the query type sits at
meta.arg.originalArgs._queryType and the payload at payload. -/
def mkAction (qt payload : JVal) : JVal :=
  .obj [("meta", .obj [("arg", .obj [("originalArgs",
    .obj [("_queryType", qt)])])]), ("payload", payload)]

/-- Seed of the canonical users container of the spec examples. -/
def usersSeed : List (String × JVal) := [("users", .arr [])]

/-- Derived initial state of the users container (ignoreDefaultReducers
unset), exactly as sliceCreator builds it. -/
def usersSlice : List (String × JVal) :=
  createInitialStateSlice usersSeed "users" JVal.undef

/-- Enum table of the users container, built as sliceCreator does from the
keys of the derived state and the keys of the seed. -/
def usersEnumTable : List (String × JVal) :=
  createEnumObject (usersSlice.map (fun p => p.1))
    (usersSeed.map (fun p => p.1)) "users"

/-- Extraction of one field of one sub-state out of a handler result,
propagating any error. -/
def subStateField (r : Except String JVal) (key field : String) :
    Except String JVal :=
  match r with
  | .error e => .error e
  | .ok v =>
      match getProp v key with
      | .error e => .error e
      | .ok sub => getProp sub field

/-- Container state of the invalid-key scenario: the freshly derived users
container. -/
def c1State : JVal := .obj usersSlice

/-- Action payload of the invalid-key scenario: a normal pagination payload
that carries no query type at all. -/
def c1Payload : JVal :=
  .obj [("data", .obj [("results", .arr []), ("page", .num 2)])]

/-- Container of spec scenario C: one result, page 1, hasMore still true, a
load in flight. -/
def c2State : JVal :=
  .obj [("usersusers",
    envWith (.arr [itm 1]) (.bool true) (.bool true) (.num 1) .null)]

/-- Fulfilled action of spec scenario C. -/
def c2Action : JVal :=
  mkAction (.str "usersusers") (.obj [("results", .arr [itm 2])])

/-- Container of the token-pagination scenario: stored page is the opaque
token tokA. -/
def c3State : JVal :=
  .obj [("usersusers",
    envWith (.arr [itm 1]) (.bool false) (.bool true) (.str "tokA") .null)]

/-- Explicit page-data payload carrying the different token tokB. -/
def c3Payload : JVal :=
  .obj [("_queryType", .str "usersusers"),
        ("data", .obj [("page", .str "tokB"), ("results", .arr [itm 2])])]

/-- Container of the rejected scenario: a fresh envelope (errors is null) with
a load in flight. -/
def c4State : JVal :=
  .obj [("usersusers",
    envWith (.arr []) (.bool true) (.bool true) (.num 0) .null)]

/-- Rejected action carrying an error payload. -/
def c4Action : JVal := mkAction (.str "usersusers") (.str "boom")

/-- Seed of the allow-list scenario: two collection-valued keys. -/
def c5Seed : List (String × JVal) := [("a", .arr []), ("b", .arr [])]

/-- Container of spec scenario B: two results, page 2, hasMore false. -/
def c6State : JVal :=
  .obj [("usersusers",
    envWith (.arr [itm 1, itm 2]) (.bool true) (.bool false) (.num 2) .null)]

/-- Fulfilled action of spec scenario B: the overlapping page holding ids 2
and 3. -/
def c6Action : JVal :=
  mkAction (.str "usersusers") (.obj [("results", .arr [itm 2, itm 3])])

/-! ### Helper lemmas on field assignment and key folds -/

theorem lookupJ_objSet_self (l : List (String × JVal)) (k : String) (v : JVal) :
    lookupJ (objSet l k v) k = some v := by
  induction l with
  | nil => simp [objSet, lookupJ]
  | cons q rest ih =>
    by_cases hq : q.1 = k
    · simp [objSet, lookupJ, hq]
    · simpa [objSet, lookupJ, hq] using ih

theorem lookupJ_objSet_ne (l : List (String × JVal)) (k : String) (v : JVal)
    (x : String) (hx : x ≠ k) : lookupJ (objSet l k v) x = lookupJ l x := by
  have hkx : ¬k = x := fun h => hx h.symm
  induction l with
  | nil => simp [objSet, lookupJ, hkx]
  | cons q rest ih =>
    by_cases hq : q.1 = k
    · simp [objSet, lookupJ, hq, hkx]
    · by_cases hqx : q.1 = x
      · simp [objSet, lookupJ, hq, hqx, hx]
      · simpa [objSet, lookupJ, hq, hqx] using ih

theorem lookupJ_foldl_objSet_not_mem (g : String → String) (f : String → JVal)
    (keys : List String) :
    ∀ (init : List (String × JVal)) (x : String), (∀ k ∈ keys, g k ≠ x) →
      lookupJ (keys.foldl (fun acc key => objSet acc (g key) (f key)) init) x
        = lookupJ init x := by
  induction keys with
  | nil => intro init x _; rfl
  | cons k0 rest ih =>
    intro init x h
    simp only [List.foldl_cons]
    rw [ih _ x (fun k hk => h k (List.mem_cons_of_mem _ hk)),
      lookupJ_objSet_ne _ _ _ _ (Ne.symm (h k0 (List.mem_cons_self _ _)))]

theorem lookupJ_foldl_objSet (g : String → String) (f : String → JVal)
    (keys : List String) :
    ∀ (init : List (String × JVal)), (keys.map g).Nodup →
      ∀ k ∈ keys,
        lookupJ (keys.foldl (fun acc key => objSet acc (g key) (f key)) init)
          (g k) = some (f k) := by
  induction keys with
  | nil => intro init _ k hk; cases hk
  | cons k0 rest ih =>
    intro init hnd k hk
    have hnd' := hnd
    rw [List.map_cons, List.nodup_cons] at hnd'
    simp only [List.foldl_cons]
    rcases List.mem_cons.mp hk with hk0 | hkr
    · subst hk0
      rw [lookupJ_foldl_objSet_not_mem g f rest _ (g k)
        (fun k' hk' h => hnd'.1 (h ▸ List.mem_map_of_mem g hk'))]
      exact lookupJ_objSet_self _ _ _
    · exact ih _ hnd'.2 k hkr

theorem lookupJ_of_nodup (l : List (String × JVal))
    (hnd : (l.map Prod.fst).Nodup) :
    ∀ p ∈ l, lookupJ l p.1 = some p.2 := by
  induction l with
  | nil => intro p hp; cases hp
  | cons q rest ih =>
    intro p hp
    rw [List.map_cons, List.nodup_cons] at hnd
    rcases List.mem_cons.mp hp with hq | hr
    · subst hq; simp [lookupJ]
    · have hne : (q.1 == p.1) = false := by
        simp only [beq_eq_false_iff_ne, ne_eq]
        intro h
        exact hnd.1 (h ▸ List.mem_map_of_mem Prod.fst hr)
      simpa [lookupJ, hne] using ih hnd.2 p hr

theorem usersSlice_eq : usersSlice = [("usersusers", pageEnvelope (.arr []))] :=
  rfl

theorem usersEnumTable_eq :
    usersEnumTable
      = [("usersusers", .str "users"), ("users", .str "usersusers")] := rfl

theorem truthy_undef : truthy .undef = false := rfl

theorem truthy_null : truthy .null = false := rfl

theorem truthy_bool (b : Bool) : truthy (.bool b) = b := rfl

theorem truthy_num (n : Int) : truthy (.num n) = (n != 0) := rfl

theorem truthy_str (s : String) : truthy (.str s) = decide (s ≠ "") := rfl

theorem truthy_arr (xs : List JVal) : truthy (.arr xs) = true := rfl

theorem truthy_obj (fs : List (String × JVal)) : truthy (.obj fs) = true := rfl

theorem jTypeof_undef : jTypeof .undef = "undefined" := rfl

theorem jTypeof_null : jTypeof .null = "object" := rfl

theorem jTypeof_bool (b : Bool) : jTypeof (.bool b) = "boolean" := rfl

theorem jTypeof_num (n : Int) : jTypeof (.num n) = "number" := rfl

theorem jTypeof_str (s : String) : jTypeof (.str s) = "string" := rfl

theorem jTypeof_arr (xs : List JVal) : jTypeof (.arr xs) = "object" := rfl

theorem jTypeof_obj (fs : List (String × JVal)) :
    jTypeof (.obj fs) = "object" := rfl

theorem isArrJ_undef : isArrJ .undef = false := rfl

theorem isArrJ_null : isArrJ .null = false := rfl

theorem isArrJ_bool (b : Bool) : isArrJ (.bool b) = false := rfl

theorem isArrJ_num (n : Int) : isArrJ (.num n) = false := rfl

theorem isArrJ_str (s : String) : isArrJ (.str s) = false := rfl

theorem isArrJ_arr (xs : List JVal) : isArrJ (.arr xs) = true := rfl

theorem isArrJ_obj (fs : List (String × JVal)) : isArrJ (.obj fs) = false := rfl

theorem arrLen_arr (xs : List JVal) : arrLen (.arr xs) = xs.length := rfl

theorem jStrictEq_str_str (a b : String) :
    jStrictEq (.str a) (.str b) = (a == b) := rfl

theorem jStrictEq_str_num (a : String) (n : Int) :
    jStrictEq (.str a) (.num n) = false := rfl

theorem jStrictEq_num_num (a b : Int) :
    jStrictEq (.num a) (.num b) = (a == b) := rfl

theorem jStrictEq_undef_num (n : Int) :
    jStrictEq .undef (.num n) = false := rfl

theorem jStrictEq_bool_num (b : Bool) (n : Int) :
    jStrictEq (.bool b) (.num n) = false := rfl

theorem jStrictEq_null_num (n : Int) :
    jStrictEq .null (.num n) = false := rfl

theorem jStrictEq_arr_num (xs : List JVal) (n : Int) :
    jStrictEq (.arr xs) (.num n) = false := rfl

theorem jStrictEq_obj_num (fs : List (String × JVal)) (n : Int) :
    jStrictEq (.obj fs) (.num n) = false := rfl

theorem exceptBind_ite {α β : Type} {c : Prop} [Decidable c]
    (x y : Except String α) (k : α → Except String β) :
    ((if c then x else y) >>= k) = if c then x >>= k else y >>= k := by
  split <;> rfl

theorem subStateField_ite {c : Prop} [Decidable c]
    (a b : Except String JVal) (k f : String) :
    subStateField (if c then a else b) k f
      = if c then subStateField a k f else subStateField b k f := by
  split <;> rfl

theorem bundleCase_preserves_flags (r0 : List JVal)
    (il hm pg er pgD rsD erD ilD : JVal) :
    ∃ r2 hm2, bundleCase (envWith (.arr r0) il hm pg er)
      (.obj [("page", pgD), ("results", rsD), ("errors", erD),
             ("isLoading", ilD)])
      = .ok (envWith r2 il hm2 pg er) := by
  cases rsD
  case arr ys =>
    by_cases c1 : jStrictEq pgD (.num 1) = true <;>
    by_cases c2 : truthy pgD = true <;>
    by_cases c3 : (jTypeof pg == "string") = true <;>
    by_cases c4 : jStrictEq pgD pg = true <;>
    simp [bundleCase, getProp, getPropD, optGet, envWith, jIndexF, lookupJ,
      objSet, setProp, jIsNullish, spreadJ, arrLen_arr, isArrJ_arr,
      c1, c2, c3, c4, exceptBind_ite,
      bind, Except.bind, pure, Except.pure] <;>
    exact ⟨_, _, rfl⟩
  all_goals
    simp [bundleCase, getProp, getPropD, optGet, envWith, jIndexF, lookupJ,
      objSet, setProp, jIsNullish, spreadJ, isArrJ_undef, isArrJ_null,
      isArrJ_bool, isArrJ_num, isArrJ_str, isArrJ_obj, exceptBind_ite,
      bind, Except.bind, pure, Except.pure]
  all_goals exact ⟨_, _, rfl⟩

theorem sliceString_inj (name : String) {a b : String}
    (h : sliceString name a = sliceString name b) : a = b := by
  unfold sliceString at h
  have h2 : (name ++ a).data = (name ++ b).data := by rw [h]
  rw [String.data_append, String.data_append] at h2
  exact String.ext (List.append_cancel_left h2)

theorem createInitialStateSlice_eq_fold (fields : List (String × JVal))
    (name : String) (z : JVal) :
    createInitialStateSlice fields name z
      = (fields.map (fun p => p.1)).foldl
          (fun acc key => objSet acc (sliceString name key)
            (if truthy z
                || (["number", "string", "boolean"].contains
                      (jTypeof (jIndexF fields key)))
             then jIndexF fields key
             else pageEnvelope (jIndexF fields key)))
          [] := by
  unfold createInitialStateSlice
  refine List.foldl_ext _ _ _ (fun acc key _ => ?_)
  exact (apply_ite (fun v => objSet acc (sliceString name key) v) _ _ _).symm

theorem enum_find_modified (keys : List String) (name k : String)
    (hk : k ∈ keys) (hne : k ≠ "") :
    (((keys.map (fun key => [(sliceString name key, key)])).find?
        (fun record =>
          ((recordGet record (sliceString name k)).getD "") ≠ "")).bind
      (fun record => recordGet record (sliceString name k))) = some k := by
  induction keys with
  | nil => cases hk
  | cons k0 rest ih =>
    by_cases h0 : k0 = k
    · subst h0
      simp [recordGet, List.find?, hne]
    · have hns : (sliceString name k0 == sliceString name k) = false := by
        simp only [beq_eq_false_iff_ne, ne_eq]
        intro h
        exact h0 (sliceString_inj name h)
      have hk' : k ∈ rest := by
        rcases List.mem_cons.mp hk with h | h
        · exact absurd h.symm h0
        · exact h
      simpa [recordGet, List.find?, hns] using ih hk'

theorem createEnumObject_eq_fold (keys : List String) (name : String)
    (hne : ∀ k ∈ keys, k ≠ "") :
    createEnumObject (keys.map (sliceString name)) keys name
      = keys.foldl
          (fun acc k => objSet (objSet acc (sliceString name k) (.str k)) k
            (.str (sliceString name k)))
          [] := by
  unfold createEnumObject
  rw [List.foldl_map]
  refine List.foldl_ext _ _ _ (fun acc k hk => ?_)
  simp only [enum_find_modified keys name k hk (hne k hk)]

theorem enumFold_not_written (name : String) (keys : List String) :
    ∀ (acc : List (String × JVal)) (x : String),
      (∀ k ∈ keys, sliceString name k ≠ x ∧ k ≠ x) →
      lookupJ (keys.foldl (fun acc k =>
        objSet (objSet acc (sliceString name k) (.str k)) k
          (.str (sliceString name k))) acc) x = lookupJ acc x := by
  induction keys with
  | nil => intro acc x _; rfl
  | cons k0 rest ih =>
    intro acc x h
    simp only [List.foldl_cons]
    rw [ih _ x (fun k hk => h k (List.mem_cons_of_mem _ hk)),
      lookupJ_objSet_ne _ _ _ _ (Ne.symm (h k0 (List.mem_cons_self _ _)).2),
      lookupJ_objSet_ne _ _ _ _ (Ne.symm (h k0 (List.mem_cons_self _ _)).1)]

theorem enumFold_round_trip (name : String) (keys : List String) :
    ∀ (acc : List (String × JVal)), keys.Nodup →
      (∀ k ∈ keys, ∀ k2 ∈ keys, sliceString name k ≠ k2) →
      ∀ k ∈ keys,
        lookupJ (keys.foldl (fun acc k =>
            objSet (objSet acc (sliceString name k) (.str k)) k
              (.str (sliceString name k))) acc) k
          = some (.str (sliceString name k))
        ∧ lookupJ (keys.foldl (fun acc k =>
            objSet (objSet acc (sliceString name k) (.str k)) k
              (.str (sliceString name k))) acc) (sliceString name k)
          = some (.str k) := by
  induction keys with
  | nil => intro acc _ _ k hk; cases hk
  | cons k0 rest ih =>
    intro acc hnd hclash k hk
    rw [List.nodup_cons] at hnd
    simp only [List.foldl_cons]
    rcases List.mem_cons.mp hk with rfl | hkr
    · constructor
      · rw [enumFold_not_written name rest _ k
            (fun k2 hk2 =>
              ⟨hclash k2 (List.mem_cons_of_mem _ hk2) k
                 (List.mem_cons_self _ _),
               fun h => hnd.1 (h ▸ hk2)⟩),
          lookupJ_objSet_self]
      · rw [enumFold_not_written name rest _ (sliceString name k)
            (fun k2 hk2 =>
              ⟨fun h => hnd.1 ((sliceString_inj name h) ▸ hk2),
               Ne.symm (hclash k (List.mem_cons_self _ _) k2
                 (List.mem_cons_of_mem _ hk2))⟩),
          lookupJ_objSet_ne _ _ _ _
            (hclash k (List.mem_cons_self _ _) k (List.mem_cons_self _ _)),
          lookupJ_objSet_self]
    · exact ih _ hnd.2
        (fun a ha b hb => hclash a (List.mem_cons_of_mem _ ha) b
          (List.mem_cons_of_mem _ hb)) k hkr

theorem map_fst_objSet_not_mem (l : List (String × JVal)) (k : String)
    (v : JVal) (h : k ∉ l.map (fun p => p.1)) :
    (objSet l k v).map (fun p => p.1) = l.map (fun p => p.1) ++ [k] := by
  induction l with
  | nil => rfl
  | cons q rest ih =>
    rw [List.map_cons, List.mem_cons] at h
    push_neg at h
    have hq : (q.1 == k) = false := by
      simp only [beq_eq_false_iff_ne, ne_eq]
      exact fun he => h.1 he.symm
    simp [objSet, hq, ih h.2]

theorem map_fst_foldl_objSet (g : String → String) (f : String → JVal)
    (keys : List String) :
    ∀ init, (init.map (fun p => p.1) ++ keys.map g).Nodup →
      (keys.foldl (fun acc key => objSet acc (g key) (f key)) init).map
        (fun p => p.1)
        = init.map (fun p => p.1) ++ keys.map g := by
  induction keys with
  | nil => intro init _; simp
  | cons k0 rest ih =>
    intro init hnd
    simp only [List.foldl_cons, List.map_cons]
    have hdis := (List.nodup_append.mp hnd).2.2
    have hg : g k0 ∉ init.map (fun p => p.1) :=
      fun hmem => hdis hmem (List.mem_cons_self _ _)
    have hnd' : ((objSet init (g k0) (f k0)).map (fun p => p.1)
        ++ rest.map g).Nodup := by
      rw [map_fst_objSet_not_mem _ _ _ hg, List.append_assoc,
        List.singleton_append]
      exact hnd
    rw [ih _ hnd', map_fst_objSet_not_mem _ _ _ hg, List.append_assoc,
      List.singleton_append]

theorem map_fst_createInitialStateSlice (fields : List (String × JVal))
    (name : String) (z : JVal)
    (hnd : ((fields.map (fun p => p.1)).map (sliceString name)).Nodup) :
    (createInitialStateSlice fields name z).map (fun p => p.1)
      = (fields.map (fun p => p.1)).map (sliceString name) := by
  rw [createInitialStateSlice_eq_fold]
  simpa using map_fst_foldl_objSet (sliceString name) _
    (fields.map (fun p => p.1)) [] (by simpa using hnd)

/-! ### Claims -/

/-- C1: the claim states that every mutation handler (setPageData and the
three lifecycle handlers) terminates without throwing and leaves the state
unchanged whenever the query type does not resolve via the enum table. The
three lifecycle handlers do behave that way, but setPageData does not: after
emitting its invalid-key diagnostic it keeps executing, dereferences the
undefined sub-state and throws a TypeError. This theorem evaluates the
embedded code at the failing input (a pagination payload with no query type on
the fresh users container) and, for contrast, at unresolvable keys of the
three lifecycle handlers, which are exception-free no-ops as claimed. -/
theorem c1_invalid_key_behaviour :
    setPageData .undef c1State c1Payload
      = .error "TypeError: Cannot set properties of undefined (setting page)"
    ∧ pendingCase usersEnumTable c1State (mkAction (.str "bogus") .undef)
      = .ok c1State
    ∧ failedCase usersEnumTable c1State (mkAction (.str "bogus") .undef)
      = .ok c1State
    ∧ successCase usersEnumTable c1State
        (mkAction (.str "bogus") (.obj [("results", .arr [itm 2])]))
      = .ok c1State :=
  ⟨rfl, rfl, rfl, rfl⟩

/-- C2 counterexample: in spec scenario C (current results the non-empty
collection with id 1, page 1, hasMore true, fulfilled payload with id 2) the
claim asserts a full replace with the incoming results; the embedded handler
instead leaves results at the old collection, which differs from the claimed
replacement. -/
theorem c2_counterexample :
    successCase usersEnumTable c2State c2Action
      = .ok (.obj [("usersusers",
          envWith (.arr [itm 1]) (.bool false) (.bool true) (.num 1) .null)])
    ∧ JVal.arr [itm 1] ≠ JVal.arr [itm 2] :=
  ⟨rfl, by simp [itm]⟩

/-- C2 amended: in scenario C the merge gate fails on hasMore, but control
does not fall through to the page-equals-1 branch, because that branch is the
else of the non-empty-array test; results are left unchanged and isLoading is
cleared. -/
theorem c2_gate_fail_keeps_results :
    subStateField (successCase usersEnumTable c2State c2Action)
      "usersusers" "results" = .ok (.arr [itm 1])
    ∧ subStateField (successCase usersEnumTable c2State c2Action)
      "usersusers" "isLoading" = .ok (.bool false) :=
  ⟨rfl, rfl⟩

/-- C3 counterexample: stored page is the token tokA, the incoming page is
the different truthy token tokB and the incoming results is an array; the
claim asserts the append of the incoming results, but the embedded setPageData
leaves results at the old collection, which differs from the claimed
concatenation. -/
theorem c3_counterexample :
    setPageData .undef c3State c3Payload
      = .ok (.obj [("usersusers",
          envWith (.arr [itm 1]) (.bool false) (.bool true) (.str "tokB")
            .null)])
    ∧ JVal.arr [itm 1] ≠ JVal.arr [itm 1, itm 2] :=
  ⟨rfl, by simp⟩

/-- C3 amended: setPageData overwrites the stored page with the incoming
truthy page before reconciling, so the paging-token short circuit compares the
incoming page with itself and always fires when the incoming page is a string:
results are left unchanged (an empty append) whatever the previously stored
page was, not only when the stored token equals the incoming one; hasMore is
still recomputed from the incoming results length. -/
theorem c3_token_overwrite_blocks_append (old rs : List JVal)
    (il hm pg0 er : JVal) (s : String) (hs : s ≠ "") :
    setPageData .undef
      (.obj [("usersusers", envWith (.arr old) il hm pg0 er)])
      (.obj [("_queryType", .str "usersusers"),
             ("data", .obj [("page", .str s), ("results", .arr rs)])])
      = .ok (.obj [("usersusers",
          envWith (.arr old) (.bool false)
            (.bool (decide (0 < rs.length))) (.str s) er)]) := by
  simp [setPageData, bundleCase, getProp, getPropD, optGet, envWith, jIndexF,
    lookupJ, objSet, jKeyString, setProp, writeBack, jIsNullish, spreadJ,
    arrLen_arr, isArrJ_arr, hs, truthy_undef, truthy_str, truthy_num,
    jStrictEq_str_num, jStrictEq_str_str, jTypeof_str,
    bind, Except.bind, pure, Except.pure]

/-- C3 witness. -/
theorem c3_token_overwrite_blocks_append_witness :
    "tokB" ≠ ""
    ∧ setPageData .undef c3State c3Payload
        = .ok (.obj [("usersusers",
            envWith (.arr [itm 1]) (.bool false)
              (.bool (decide (0 < [itm 2].length))) (.str "tokB") .null)]) :=
  ⟨by decide,
    c3_token_overwrite_blocks_append [itm 1] [itm 2] (.bool false) (.bool true)
      (.str "tokA") .null "tokB" (by decide)⟩

/-- C4 counterexample: on a fresh envelope (errors is null) the rejected
handler is claimed to set errors to the error payload; the embedded handler
leaves errors at null, which differs from the payload. -/
theorem c4_counterexample :
    failedCase usersEnumTable c4State c4Action
      = .ok (.obj [("usersusers",
          envWith (.arr []) (.bool false) (.bool true) (.num 0) .null)])
    ∧ JVal.null ≠ JVal.str "boom" :=
  ⟨rfl, by simp⟩

/-- C4 amended: for a resolvable rejected event on an envelope sub-state, the
handler clears isLoading, but it overwrites errors with the error payload only
when the current errors value is truthy; the initial null is kept. -/
theorem c4_rejected_errors_only_if_truthy (r hm pg e p : JVal) (b : Bool) :
    failedCase usersEnumTable
      (.obj [("usersusers", envWith r (.bool b) hm pg e)])
      (mkAction (.str "usersusers") p)
      = .ok (.obj [("usersusers",
          envWith r (.bool false) hm pg (if truthy e then p else e))]) := by
  rw [usersEnumTable_eq]
  cases b <;> by_cases h : truthy e = true <;>
    simp [failedCase, resolveActionKey, mkAction, getProp, getPropD, optGet,
      envWith, getKeyFromEnumValue, jIndexF, lookupJ, objSet, jKeyString,
      setProp, writeBack, jIsNullish, h, truthy_undef, truthy_null,
      truthy_bool, truthy_num, truthy_str, truthy_arr, truthy_obj,
      jStrictEq, jTypeof, List.find?, bind, Except.bind, pure, Except.pure]

/-- C5 counterexample: with the allow-list form listing only the key a, the
claim asserts that the unlisted collection-valued key b still receives the
pagination envelope; the embedded deriver instead copies b through verbatim,
and the raw empty array differs from the envelope. -/
theorem c5_counterexample :
    createInitialStateSlice c5Seed "s" (.arr [.str "a"])
      = [("sa", .arr []), ("sb", .arr [])]
    ∧ JVal.arr [] ≠ pageEnvelope (.arr []) :=
  ⟨rfl, by simp [pageEnvelope]⟩

/-- C5 amended: the runtime branch only checks the truthiness of
ignoreDefaultReducers, so any truthy value, in particular any non-empty
allow-list array, exempts every key from the envelope: each key is copied
through verbatim under its namespaced key and list membership is never
consulted. -/
theorem c5_truthy_list_copies_all_keys (fields : List (String × JVal))
    (name : String) (z : JVal) (hz : truthy z = true) :
    createInitialStateSlice fields name z
      = (fields.map (fun p => p.1)).foldl
          (fun accumulator key =>
            objSet accumulator (sliceString name key) (jIndexF fields key))
          [] := by
  unfold createInitialStateSlice
  refine List.foldl_ext _ _ _ (fun acc key _ => ?_)
  simp [hz]

/-- C5 witness. -/
theorem c5_truthy_list_copies_all_keys_witness :
    truthy (.arr [.str "a"]) = true
    ∧ createInitialStateSlice c5Seed "s" (.arr [.str "a"])
        = (c5Seed.map (fun p => p.1)).foldl
            (fun accumulator key =>
              objSet accumulator (sliceString "s" key) (jIndexF c5Seed key))
            [] :=
  ⟨rfl, c5_truthy_list_copies_all_keys c5Seed "s" (.arr [.str "a"]) rfl⟩

/-- C9: in the explicit setPageData mutation with default reducers enabled
and a resolvable key, an incoming page that is absent or strictly equal to 1,
or an incoming results that is not an array, triggers a full replace of the
sub-state results with the incoming results value regardless of the existing
results, and afterwards hasMore is true unless the incoming results is an
array, in which case it is the test that the array is non-empty. -/
theorem c9_replace_trigger (r0 il0 hm0 pg0 er0 pg rs er il : JVal)
    (hcase : pg = .undef ∨ pg = .num 1 ∨ isArrJ rs = false) :
    subStateField
      (setPageData .undef
        (.obj [("usersusers", envWith r0 il0 hm0 pg0 er0)])
        (.obj [("_queryType", .str "usersusers"),
               ("data", .obj [("page", pg), ("results", rs),
                              ("errors", er), ("isLoading", il)])]))
      "usersusers" "results" = .ok rs
    ∧ subStateField
      (setPageData .undef
        (.obj [("usersusers", envWith r0 il0 hm0 pg0 er0)])
        (.obj [("_queryType", .str "usersusers"),
               ("data", .obj [("page", pg), ("results", rs),
                              ("errors", er), ("isLoading", il)])]))
      "usersusers" "hasMore"
        = .ok (if isArrJ rs then .bool (decide (0 < arrLen rs))
               else .bool true) := by
  obtain h | h | h := hcase
  · subst h
    constructor <;>
    (by_cases he : truthy er = true <;> by_cases hi : truthy il = true <;>
      simp [setPageData, bundleCase, subStateField, getProp, getPropD, optGet,
        envWith, jIndexF, lookupJ, objSet, jKeyString, setProp, writeBack,
        jIsNullish, spreadJ, he, hi, truthy_undef, truthy_num, truthy_str,
        jStrictEq_undef_num, exceptBind_ite, subStateField_ite,
        bind, Except.bind, pure, Except.pure])
  · subst h
    constructor <;>
    (by_cases he : truthy er = true <;> by_cases hi : truthy il = true <;>
      simp [setPageData, bundleCase, subStateField, getProp, getPropD, optGet,
        envWith, jIndexF, lookupJ, objSet, jKeyString, setProp, writeBack,
        jIsNullish, spreadJ, he, hi, truthy_undef, truthy_num, truthy_str,
        jStrictEq_num_num, jTypeof_num, exceptBind_ite, subStateField_ite,
        bind, Except.bind, pure, Except.pure])
  · constructor <;>
    (by_cases he : truthy er = true <;> by_cases hi : truthy il = true <;>
      by_cases hp : truthy pg = true <;>
      simp [setPageData, bundleCase, subStateField, getProp, getPropD, optGet,
        envWith, jIndexF, lookupJ, objSet, jKeyString, setProp, writeBack,
        jIsNullish, spreadJ, h, he, hi, hp, truthy_undef, truthy_num,
        truthy_str, exceptBind_ite, subStateField_ite,
        bind, Except.bind, pure, Except.pure])

/-- C9 witness. -/
theorem c9_replace_trigger_witness :
    (JVal.undef = JVal.undef ∨ JVal.undef = JVal.num 1
      ∨ isArrJ (.arr [itm 5]) = false)
    ∧ subStateField
        (setPageData .undef
          (.obj [("usersusers",
            envWith (.arr [itm 1]) (.bool false) (.bool true) (.num 3)
              .null)])
          (.obj [("_queryType", .str "usersusers"),
                 ("data", .obj [("page", .undef), ("results", .arr [itm 5]),
                                ("errors", .null), ("isLoading", .undef)])]))
        "usersusers" "results" = .ok (.arr [itm 5]) :=
  ⟨Or.inl rfl,
    (c9_replace_trigger (.arr [itm 1]) (.bool false) (.bool true) (.num 3)
      .null .undef (.arr [itm 5]) .null .undef (Or.inl rfl)).1⟩

/-- C6 counterexample: in spec scenario B (current results with ids 1 and 2,
page 2, hasMore false, fulfilled payload with ids 2 and 3) the claim asserts
the merged result with ids 1, 2 and 3; under the spec-modelled uniqueness rule
the combined sequence repeats id 2, the gate fails, and the embedded handler
leaves results at the old collection, which differs from the claimed union. -/
theorem c6_counterexample :
    successCase usersEnumTable c6State c6Action
      = .ok (.obj [("usersusers",
          envWith (.arr [itm 1, itm 2]) (.bool false) (.bool false) (.num 2)
            .null)])
    ∧ JVal.arr [itm 1, itm 2] ≠ JVal.arr [itm 1, itm 2, itm 3] :=
  ⟨rfl, by simp⟩

/-- C6 amended: in scenario B the combined sequence contains id 2 twice, so it
is not duplicate-free under the identity rule; the merge gate therefore fails,
results are left unchanged and isLoading is cleared. -/
theorem c6_duplicate_gate_blocks_merge :
    isUnique [itm 1, itm 2, itm 2, itm 3] = false
    ∧ subStateField (successCase usersEnumTable c6State c6Action)
        "usersusers" "results" = .ok (.arr [itm 1, itm 2])
    ∧ subStateField (successCase usersEnumTable c6State c6Action)
        "usersusers" "isLoading" = .ok (.bool false) :=
  ⟨rfl, rfl, rfl⟩

/-- C7: for every seed object (distinct, non-empty base keys whose namespaced
forms do not collide back into the key set, the scope the spec fixes for valid
identifiers) and container name, the enum table built at construction from the
derived state keys and the seed keys contains, for every base key, both the
forward entry to its namespaced key and the reverse entry back, so lookups
round-trip in both directions. -/
theorem c7_enum_round_trip (fields : List (String × JVal)) (name : String)
    (z : JVal) (hnd : (fields.map (fun p => p.1)).Nodup)
    (hne : ∀ k ∈ fields.map (fun p => p.1), k ≠ "")
    (hclash : ∀ k ∈ fields.map (fun p => p.1),
      ∀ k2 ∈ fields.map (fun p => p.1), sliceString name k ≠ k2) :
    ∀ k ∈ fields.map (fun p => p.1),
      lookupJ (createEnumObject
          ((createInitialStateSlice fields name z).map (fun p => p.1))
          (fields.map (fun p => p.1)) name) k
        = some (.str (sliceString name k))
      ∧ lookupJ (createEnumObject
          ((createInitialStateSlice fields name z).map (fun p => p.1))
          (fields.map (fun p => p.1)) name) (sliceString name k)
        = some (.str k) := by
  intro k hk
  rw [map_fst_createInitialStateSlice fields name z
      (hnd.map (fun a b h => sliceString_inj name h)),
    createEnumObject_eq_fold _ name hne]
  exact enumFold_round_trip name _ [] hnd hclash k hk

/-- C7 witness. -/
theorem c7_enum_round_trip_witness :
    (([("users", JVal.arr []), ("user", JVal.null)].map
        (fun p => p.1)).Nodup)
    ∧ (∀ k ∈ [("users", JVal.arr []), ("user", JVal.null)].map
        (fun p => p.1), k ≠ "")
    ∧ (∀ k ∈ [("users", JVal.arr []), ("user", JVal.null)].map
        (fun p => p.1),
       ∀ k2 ∈ [("users", JVal.arr []), ("user", JVal.null)].map
        (fun p => p.1), sliceString "users" k ≠ k2)
    ∧ lookupJ (createEnumObject
        ((createInitialStateSlice
            [("users", JVal.arr []), ("user", JVal.null)] "users" .undef).map
          (fun p => p.1))
        ([("users", JVal.arr []), ("user", JVal.null)].map (fun p => p.1))
        "users") "users" = some (.str (sliceString "users" "users"))
    ∧ lookupJ (createEnumObject
        ((createInitialStateSlice
            [("users", JVal.arr []), ("user", JVal.null)] "users" .undef).map
          (fun p => p.1))
        ([("users", JVal.arr []), ("user", JVal.null)].map (fun p => p.1))
        "users") (sliceString "users" "users") = some (.str "users") :=
  ⟨by decide, by decide, by decide,
    (c7_enum_round_trip [("users", JVal.arr []), ("user", JVal.null)]
      "users" .undef (by decide) (by decide) (by decide) "users"
      (by simp)).1,
    (c7_enum_round_trip [("users", JVal.arr []), ("user", JVal.null)]
      "users" .undef (by decide) (by decide) (by decide) "users"
      (by simp)).2⟩

/-- C8: with ignoreDefaultReducers unset, the derived initial state stores,
under the namespaced key of each seed key, the seed value itself when it is a
number, string or boolean, and otherwise the pagination envelope with results
seeded from the value, isLoading false, hasMore true, page 0 and errors
null. -/
theorem c8_initial_state_envelopes (fields : List (String × JVal))
    (name : String) (hnd : (fields.map (fun p => p.1)).Nodup) :
    ∀ p ∈ fields,
      lookupJ (createInitialStateSlice fields name .undef)
        (sliceString name p.1)
        = some (if ["number", "string", "boolean"].contains (jTypeof p.2)
                then p.2 else pageEnvelope p.2) := by
  intro p hp
  rw [createInitialStateSlice_eq_fold]
  have hmap : ((fields.map (fun p => p.1)).map (sliceString name)).Nodup :=
    hnd.map (fun a b h => sliceString_inj name h)
  have hlk : lookupJ fields p.1 = some p.2 := lookupJ_of_nodup fields hnd p hp
  have hfold := lookupJ_foldl_objSet (sliceString name)
    (fun key => if truthy .undef
        || (["number", "string", "boolean"].contains
              (jTypeof (jIndexF fields key)))
      then jIndexF fields key else pageEnvelope (jIndexF fields key))
    (fields.map (fun p => p.1)) [] hmap p.1
    (List.mem_map_of_mem _ hp)
  rw [hfold]
  simp [jIndexF, hlk, truthy_undef]

/-- C8 witness: spec scenario A, seed with an empty users collection and a
numeric count in the users container. -/
theorem c8_initial_state_envelopes_witness :
    (([("users", JVal.arr []), ("count", JVal.num 0)].map
        (fun p => p.1)).Nodup)
    ∧ lookupJ (createInitialStateSlice
        [("users", JVal.arr []), ("count", JVal.num 0)] "users" .undef)
        "usersusers" = some (pageEnvelope (.arr []))
    ∧ lookupJ (createInitialStateSlice
        [("users", JVal.arr []), ("count", JVal.num 0)] "users" .undef)
        "userscount" = some (.num 0) :=
  ⟨by decide,
    c8_initial_state_envelopes
      [("users", JVal.arr []), ("count", JVal.num 0)] "users" (by decide)
      ("users", JVal.arr []) (by simp),
    c8_initial_state_envelopes
      [("users", JVal.arr []), ("count", JVal.num 0)] "users" (by decide)
      ("count", JVal.num 0) (by simp)⟩

/-- C10: after an explicit setPageData mutation with default reducers enabled
and a resolvable key, isLoading equals the incoming isLoading when that value
is truthy and false otherwise (so a prior loading flag is cleared when the
payload omits isLoading), and the errors and page fields are overwritten only
when the incoming errors (respectively page) is truthy, the previously stored
value being retained otherwise. -/
theorem c10_setPageData_flag_policy (r0 : List JVal)
    (il0 hm0 pg0 er0 pgD rsD erD ilD : JVal) :
    subStateField (setPageData .undef
        (.obj [("usersusers", envWith (.arr r0) il0 hm0 pg0 er0)])
        (.obj [("_queryType", .str "usersusers"),
               ("data", .obj [("page", pgD), ("results", rsD),
                              ("errors", erD), ("isLoading", ilD)])]))
      "usersusers" "isLoading"
      = .ok (if truthy ilD then ilD else .bool false)
    ∧ subStateField (setPageData .undef
        (.obj [("usersusers", envWith (.arr r0) il0 hm0 pg0 er0)])
        (.obj [("_queryType", .str "usersusers"),
               ("data", .obj [("page", pgD), ("results", rsD),
                              ("errors", erD), ("isLoading", ilD)])]))
      "usersusers" "errors"
      = .ok (if truthy erD then erD else er0)
    ∧ subStateField (setPageData .undef
        (.obj [("usersusers", envWith (.arr r0) il0 hm0 pg0 er0)])
        (.obj [("_queryType", .str "usersusers"),
               ("data", .obj [("page", pgD), ("results", rsD),
                              ("errors", erD), ("isLoading", ilD)])]))
      "usersusers" "page"
      = .ok (if truthy pgD then pgD else pg0) := by
  obtain ⟨r2, hm2, heq⟩ := bundleCase_preserves_flags r0 il0 hm0
    (if truthy pgD then pgD else pg0) (if truthy erD then erD else er0)
    pgD rsD erD ilD
  by_cases he : truthy erD = true <;> by_cases hp : truthy pgD = true <;>
    by_cases hi : truthy ilD = true <;>
    simp [he, hp, envWith] at heq <;>
    simp [setPageData, subStateField, getProp, getPropD, optGet, envWith,
      jIndexF, lookupJ, objSet, jKeyString, setProp, writeBack, jIsNullish,
      he, hp, hi, truthy_str, truthy_undef, heq,
      bind, Except.bind, pure, Except.pure]

end MMRedux
